import Mathlib

set_option maxRecDepth 100000

/-!
Shallow embedding of the transcribe-service repository's cache manager
(`src/cache_manager.py`) and model lifecycle manager (`src/server.py`),
with theorems checking the specification's claims about them.

Machine integers are modelled as `Nat` with explicit reduction modulo
`2 ^ 32` where the MD5 hash needs 32-bit wraparound; wall-clock times are
modelled as rationals; the filesystem is an association list from path
strings to file payloads with a last-modified time.
-/

namespace TranscribeService

/-! MD5, as computed by Python's `hashlib.md5(...).hexdigest()`.
The cache manager derives every cache key from an MD5 hex digest of a
UTF-8 encoded string, so the hash is embedded in full. -/

/-- Truncate to a 32-bit word. -/
def w32 (n : Nat) : Nat := n % 4294967296

/-- Bitwise complement on 32-bit words. -/
def bnot32 (n : Nat) : Nat := n ^^^ 4294967295

/-- Left rotation of a 32-bit word by `s` places (0 < s < 32). -/
def rotl32 (x s : Nat) : Nat :=
  w32 (w32 x <<< s) + (w32 x >>> (32 - s))

/-- The 64 MD5 round constants (floor(2^32 * |sin(i + 1)|)). -/
def md5K : List Nat :=
  [0xd76aa478, 0xe8c7b756, 0x242070db, 0xc1bdceee,
   0xf57c0faf, 0x4787c62a, 0xa8304613, 0xfd469501,
   0x698098d8, 0x8b44f7af, 0xffff5bb1, 0x895cd7be,
   0x6b901122, 0xfd987193, 0xa679438e, 0x49b40821,
   0xf61e2562, 0xc040b340, 0x265e5a51, 0xe9b6c7aa,
   0xd62f105d, 0x02441453, 0xd8a1e681, 0xe7d3fbc8,
   0x21e1cde6, 0xc33707d6, 0xf4d50d87, 0x455a14ed,
   0xa9e3e905, 0xfcefa3f8, 0x676f02d9, 0x8d2a4c8a,
   0xfffa3942, 0x8771f681, 0x6d9d6122, 0xfde5380c,
   0xa4beea44, 0x4bdecfa9, 0xf6bb4b60, 0xbebfbc70,
   0x289b7ec6, 0xeaa127fa, 0xd4ef3085, 0x04881d05,
   0xd9d4d039, 0xe6db99e5, 0x1fa27cf8, 0xc4ac5665,
   0xf4292244, 0x432aff97, 0xab9423a7, 0xfc93a039,
   0x655b59c3, 0x8f0ccc92, 0xffeff47d, 0x85845dd1,
   0x6fa87e4f, 0xfe2ce6e0, 0xa3014314, 0x4e0811a1,
   0xf7537e82, 0xbd3af235, 0x2ad7d2bb, 0xeb86d391]

/-- The 64 MD5 per-round left-rotation amounts. -/
def md5S : List Nat :=
  [7, 12, 17, 22, 7, 12, 17, 22, 7, 12, 17, 22, 7, 12, 17, 22,
   5, 9, 14, 20, 5, 9, 14, 20, 5, 9, 14, 20, 5, 9, 14, 20,
   4, 11, 16, 23, 4, 11, 16, 23, 4, 11, 16, 23, 4, 11, 16, 23,
   6, 10, 15, 21, 6, 10, 15, 21, 6, 10, 15, 21, 6, 10, 15, 21]

/-- Little-endian 32-bit word assembled from bytes `4*g .. 4*g+3` of a chunk. -/
def wordAt (chunk : List Nat) (g : Nat) : Nat :=
  chunk.getD (4 * g) 0 + 256 * chunk.getD (4 * g + 1) 0 +
    65536 * chunk.getD (4 * g + 2) 0 + 16777216 * chunk.getD (4 * g + 3) 0

/-- One MD5 round: state is the register quadruple (A, B, C, D). -/
def md5Round (chunk : List Nat) (st : Nat × Nat × Nat × Nat) (i : Nat) :
    Nat × Nat × Nat × Nat :=
  let A := st.1
  let B := st.2.1
  let C := st.2.2.1
  let D := st.2.2.2
  let F :=
    if i < 16 then (B &&& C) ||| (bnot32 B &&& D)
    else if i < 32 then (D &&& B) ||| (bnot32 D &&& C)
    else if i < 48 then B ^^^ C ^^^ D
    else C ^^^ (B ||| bnot32 D)
  let g :=
    if i < 16 then i
    else if i < 32 then (5 * i + 1) % 16
    else if i < 48 then (3 * i + 5) % 16
    else (7 * i) % 16
  let F2 := w32 (F + A + md5K.getD i 0 + wordAt chunk g)
  (D, w32 (B + rotl32 F2 (md5S.getD i 0)), B, C)

/-- Process one 64-byte chunk, updating the accumulated digest state. -/
def md5Chunk (acc : Nat × Nat × Nat × Nat) (chunk : List Nat) :
    Nat × Nat × Nat × Nat :=
  let r := (List.range 64).foldl (md5Round chunk) acc
  (w32 (acc.1 + r.1), w32 (acc.2.1 + r.2.1),
   w32 (acc.2.2.1 + r.2.2.1), w32 (acc.2.2.2 + r.2.2.2))

/-- Split a byte list into chunks of 64, with structural fuel. -/
def chunksAux : Nat → List Nat → List (List Nat)
  | 0, _ => []
  | fuel + 1, bytes =>
    if bytes.isEmpty then []
    else bytes.take 64 :: chunksAux fuel (bytes.drop 64)

/-- Split a byte list into chunks of 64 bytes. -/
def chunks64 (bytes : List Nat) : List (List Nat) :=
  chunksAux bytes.length bytes

/-- MD5 padding: a 0x80 byte, zeros to 56 mod 64, then the 64-bit
little-endian bit length. -/
def md5Pad (msg : List Nat) : List Nat :=
  let len := msg.length
  let zeros := (119 - len % 64) % 64
  msg ++ [128] ++ List.replicate zeros 0 ++
    (List.range 8).map (fun i => (((len * 8) % 18446744073709551616) >>> (8 * i)) % 256)

/-- Little-endian byte decomposition of a 32-bit word. -/
def wordLE (wd : Nat) : List Nat :=
  [wd % 256, wd / 256 % 256, wd / 65536 % 256, wd / 16777216 % 256]

/-- The 16-byte MD5 digest of a byte string. -/
def md5Bytes (msg : List Nat) : List Nat :=
  let r := (chunks64 (md5Pad msg)).foldl md5Chunk
    (0x67452301, 0xefcdab89, 0x98badcfe, 0x10325476)
  wordLE r.1 ++ wordLE r.2.1 ++ wordLE r.2.2.1 ++ wordLE r.2.2.2

/-- Lowercase hexadecimal digit for a nibble. -/
def hexChar (n : Nat) : Char :=
  if n < 10 then Char.ofNat (48 + n) else Char.ofNat (87 + n)

/-- Two lowercase hex characters for a byte, high nibble first. -/
def byteHex (b : Nat) : List Char :=
  [hexChar (b / 16 % 16), hexChar (b % 16)]

/-- Lowercase hex string of a byte list. -/
def bytesHex (bytes : List Nat) : String :=
  String.mk ((bytes.map byteHex).flatten)

/-- UTF-8 byte encoding of one character (Python's `str.encode()`). -/
def utf8Char (c : Char) : List Nat :=
  let n := c.toNat
  if n < 128 then [n]
  else if n < 2048 then [192 + n / 64, 128 + n % 64]
  else if n < 65536 then [224 + n / 4096, 128 + n / 64 % 64, 128 + n % 64]
  else [240 + n / 262144, 128 + n / 4096 % 64, 128 + n / 64 % 64, 128 + n % 64]

/-- UTF-8 byte encoding of a string (Python's `str.encode()`). -/
def strBytes (s : String) : List Nat :=
  (s.data.map utf8Char).flatten

/-- Python's `hashlib.md5(s.encode()).hexdigest()`. -/
def md5Hex (s : String) : String :=
  bytesHex (md5Bytes (strBytes s))

/-! Cache key derivation (`CacheManager._get_cache_key` and the key
selection repeated in each cache operation). `Option String` models a
Python string argument that may be `None`; Python truthiness of a string
is `none`-or-empty falsity. -/

/-- Python truthiness of an optional string: `None` and `""` are falsy. -/
def truthy : Option String → Bool
  | none => false
  | some s => !(s == "")

/-- String interpolation of an optional-string argument known to be truthy. -/
def optStr : Option String → String
  | none => ""
  | some s => s

/-- CacheManager._get_cache_key: choose the key content by priority and
hash it with MD5 (lowercase hex digest). -/
def get_cache_key (url bvid audio_id : Option String) : String :=
  let content :=
    if truthy bvid && truthy audio_id then optStr bvid ++ "_" ++ optStr audio_id
    else if truthy url && truthy bvid then optStr url ++ optStr bvid
    else if truthy url then optStr url
    else ""
  md5Hex content

/-- The key-selection conditional repeated at the head of
`get_cached_file`, `save_to_cache`, `get_cached_transcript` and
`save_transcript_to_cache`. -/
def mediaCacheKey (url bvid audio_id : Option String) : String :=
  if truthy bvid && truthy audio_id then get_cache_key none bvid audio_id
  else get_cache_key url bvid none

/-! JSON values and the filesystem model. A transcript record is a JSON
object, modelled as an association list in Python dict insertion order.
The cache directory is an association list from path strings to a file
payload plus its last-modified time. -/

/-- JSON value, as serialized by `json.dump` and read back by `json.load`. -/
inductive JVal where
  | null
  | bool (b : Bool)
  | num (q : ℚ)
  | str (s : String)
  | arr (elems : List JVal)
  | obj (fields : List (String × JVal))

/-- A JSON object in Python dict insertion order. -/
abbrev JDict := List (String × JVal)

/-- Python dict item assignment `d[k] = v`: updates the value in place
when the key exists (keeping its position), otherwise appends. -/
def dictSet (d : JDict) (k : String) (v : JVal) : JDict :=
  if d.any (fun e => e.1 == k) then d.map (fun e => if e.1 == k then (k, v) else e)
  else d ++ [(k, v)]

/-- Payload of a cached file: copied media bytes (identified by their
source path) or a JSON transcript record. -/
inductive FileData where
  | media (content : String)
  | json (record : JDict)

/-- A cached file: payload and last-modified time (`st_mtime`). -/
structure FileInfo where
  data : FileData
  mtime : ℚ

/-- The cache directory tree: association list from paths to files. -/
abbrev Fs := List (String × FileInfo)

/-- File lookup (`Path.exists` plus reading `st_mtime` and contents). -/
def fsGet (fs : Fs) (p : String) : Option FileInfo :=
  match fs.find? (fun e => e.1 == p) with
  | some e => some e.2
  | none => none

/-- File write (`shutil.copy2` / `open(..., 'w')`): overwrites the file
at the path when it exists, otherwise creates it. -/
def fsSet (fs : Fs) (p : String) (info : FileInfo) : Fs :=
  match fs with
  | [] => [(p, info)]
  | e :: rest => if e.1 == p then (p, info) :: rest else e :: fsSet rest p info

/-- File deletion (`Path.unlink`). -/
def fsErase (fs : Fs) (p : String) : Fs :=
  fs.filter (fun e => !(e.1 == p))

/-! Path helpers mirroring `pathlib`. -/

/-- Characters after the last occurrence of the separator. -/
def afterLastSep (sep : Char) : List Char → List Char → List Char
  | acc, [] => acc
  | acc, c :: cs => if c == sep then afterLastSep sep cs cs else afterLastSep sep acc cs

/-- Final path component (`Path(p).name` for the plain relative/absolute
paths this service builds). -/
def lastComponent (p : String) : String :=
  String.mk (afterLastSep '/' p.data p.data)

/-- Index of the last '.' in a character list (`str.rfind('.')`). -/
def lastDotIdxAux : List Char → Nat → Option Nat → Option Nat
  | [], _, acc => acc
  | c :: rest, i, acc => lastDotIdxAux rest (i + 1) (if c == '.' then some i else acc)

/-- Extension of the final path component (`Path(p).suffix`): the part
from the last dot onward, empty when the name has no usable dot. -/
def pathSuffix (p : String) : String :=
  let name := lastComponent p
  match lastDotIdxAux name.data 0 none with
  | some i => if 0 < i && i + 1 < name.data.length then String.mk (name.data.drop i) else ""
  | none => ""

/-- CacheManager._get_cache_path: `cache_dir / f"{cache_key}{ext}"`. -/
def get_cache_path (cacheDir key ext : String) : String :=
  cacheDir ++ "/" ++ key ++ ext

/-- Transcript cache path: `transcript_dir / f"{cache_key}.json"`. -/
def transcript_path (cacheDir key : String) : String :=
  cacheDir ++ "/transcripts/" ++ key ++ ".json"

/-- The cache configuration consumed by `CacheManager.__init__`. -/
structure CacheConfig where
  enabled : Bool
  cacheDir : String
  cacheDays : ℚ

/-! The four cache operations. Each takes the current wall-clock time
`now` and the filesystem, and returns its Python return value together
with the filesystem after the call. -/

/-- CacheManager.get_cached_file: return the cached path on a fresh hit,
delete the file and miss when it is older than the TTL, miss when absent
or when the cache is disabled. -/
def get_cached_file (cfg : CacheConfig) (url bvid : Option String) (ext : String)
    (audio_id : Option String) (now : ℚ) (fs : Fs) : Option String × Fs :=
  if !cfg.enabled then (none, fs)
  else
    let key := mediaCacheKey url bvid audio_id
    let path := get_cache_path cfg.cacheDir key ext
    match fsGet fs path with
    | some info =>
      if now - info.mtime ≤ cfg.cacheDays * 24 * 3600 then (some path, fs)
      else (none, fsErase fs path)
    | none => (none, fs)

/-- CacheManager.save_to_cache: copy the file into the cache directory
under the fingerprint plus the source extension (default '.mp3'); on
copy failure (`copyOk = false`) swallow the error and return the
original path. -/
def save_to_cache (cfg : CacheConfig) (url : Option String) (file_path : String)
    (bvid audio_id : Option String) (copyOk : Bool) (now : ℚ) (fs : Fs) :
    String × Fs :=
  if !cfg.enabled then (file_path, fs)
  else
    let ext0 := pathSuffix file_path
    let ext := if ext0 == "" then ".mp3" else ext0
    let key := mediaCacheKey url bvid audio_id
    let path := get_cache_path cfg.cacheDir key ext
    if copyOk then (path, fsSet fs path (FileInfo.mk (FileData.media file_path) now))
    else (file_path, fs)

/-- CacheManager.get_cached_transcript: return the stored record on a
fresh hit; delete and miss when expired; on a fresh hit whose payload
cannot be parsed as JSON, delete and miss. -/
def get_cached_transcript (cfg : CacheConfig) (url bvid audio_id : Option String)
    (now : ℚ) (fs : Fs) : Option JDict × Fs :=
  if !cfg.enabled then (none, fs)
  else
    let key := mediaCacheKey url bvid audio_id
    let path := transcript_path cfg.cacheDir key
    match fsGet fs path with
    | some info =>
      if now - info.mtime ≤ cfg.cacheDays * 24 * 3600 then
        match info.data with
        | FileData.json record => (some record, fs)
        | FileData.media _ => (none, fsErase fs path)
      else (none, fsErase fs path)
    | none => (none, fs)

/-- Python falsity of the `transcript_data` argument: `None` or `{}`. -/
def isFalsyRecord : Option JDict → Bool
  | none => true
  | some [] => true
  | some (_ :: _) => false

/-- CacheManager.save_transcript_to_cache: no-op when the cache is
disabled or the record is falsy; otherwise sets `cached_at` on the
caller's record object and then writes the JSON file (`writeOk = false`
models the write raising, which is swallowed after the mutation).
Returns the caller's record as it is after the call, with the
filesystem. -/
def save_transcript_to_cache (cfg : CacheConfig) (url : Option String)
    (transcript_data : Option JDict) (bvid audio_id : Option String)
    (writeOk : Bool) (now : ℚ) (fs : Fs) : Option JDict × Fs :=
  if !cfg.enabled || isFalsyRecord transcript_data then (transcript_data, fs)
  else
    let key := mediaCacheKey url bvid audio_id
    let path := transcript_path cfg.cacheDir key
    let mutated := dictSet (transcript_data.getD []) "cached_at" (JVal.num now)
    if writeOk then (some mutated, fsSet fs path (FileInfo.mk (FileData.json mutated) now))
    else (some mutated, fs)

/-! The model lifecycle manager (`ModelManager` and `monitor_loop` in
`src/server.py`). The inference engine is external: an environment
records whether the accelerator is available and what `AutoModel(...)`
does on each device (a fresh instance, or an exception message).
Observable side effects are collected in a trace. -/

/-- Observable side effects of the lifecycle manager. -/
inductive Eff where
  | initAttempt (device : String)
  | cudaEmptyCache
  | gcCollect
deriving DecidableEq

/-- ModelManager state: `model`, `device`, `last_active_time`. -/
structure MMState where
  model : Option Nat
  device : String
  last_active_time : ℚ

/-- The external engine and accelerator: `torch.cuda.is_available()` and
the outcome of `AutoModel(device=...)`. -/
structure Env where
  cudaAvailable : Bool
  autoModel : String → Except String Nat

/-- Python's `str.lower()` (ASCII suffices for the messages compared). -/
def lowerStr (s : String) : String := String.mk (s.data.map Char.toLower)

/-- Whether the second character list starts with the first. -/
def leadsWith : List Char → List Char → Bool
  | [], _ => true
  | _ :: _, [] => false
  | p :: ps, c :: cs => p == c && leadsWith ps cs

/-- Whether the pattern occurs as a contiguous run in the string. -/
def containsChars (pat : List Char) : List Char → Bool
  | [] => leadsWith pat []
  | c :: cs => leadsWith pat (c :: cs) || containsChars pat cs

/-- The OOM test `"out of memory" in str(e).lower()`. -/
def containsOOM (e : String) : Bool :=
  containsChars "out of memory".toList (lowerStr e).toList

/-- ModelManager.load_model_if_needed: refresh `last_active_time`, return
the loaded instance if any; otherwise initialize on cuda when available,
falling back to cpu exactly once on an out-of-memory failure (after
emptying the cuda cache); other failures, and fallback failures,
propagate. Returns the outcome, the post-call state and the effect trace. -/
def load_model_if_needed (env : Env) (now : ℚ) (st : MMState) :
    Except String Nat × MMState × List Eff :=
  let st1 := { st with last_active_time := now }
  match st1.model with
  | some m => (Except.ok m, st1, [])
  | none =>
    let target := if env.cudaAvailable then "cuda" else "cpu"
    match env.autoModel target with
    | Except.ok m =>
      (Except.ok m, { st1 with model := some m, device := target }, [Eff.initAttempt target])
    | Except.error e =>
      if containsOOM e && target == "cuda" then
        match env.autoModel "cpu" with
        | Except.ok m =>
          (Except.ok m, { st1 with model := some m, device := "cpu" },
            [Eff.initAttempt target, Eff.cudaEmptyCache, Eff.initAttempt "cpu"])
        | Except.error e2 =>
          (Except.error e2, st1,
            [Eff.initAttempt target, Eff.cudaEmptyCache, Eff.initAttempt "cpu"])
      else (Except.error e, st1, [Eff.initAttempt target])

/-- ModelManager.unload_model: drop the instance, collect garbage, and
empty the cuda cache when the accelerator is available; no-op when
nothing is loaded. -/
def unload_model (env : Env) (st : MMState) : MMState × List Eff :=
  match st.model with
  | some _ =>
    ({ st with model := none },
      Eff.gcCollect :: (if env.cudaAvailable then [Eff.cudaEmptyCache] else []))
  | none => (st, [])

/-- One iteration of `monitor_loop` after its sleep: evict the instance
when one is loaded and idle longer than the timeout. -/
def monitor_tick (env : Env) (idle_timeout now : ℚ) (st : MMState) :
    MMState × List Eff :=
  if st.model.isSome then
    if now - st.last_active_time > idle_timeout then unload_model env st
    else (st, [])
  else (st, [])

/-! Digest format helpers, and two known-answer checks validating the
embedded MD5 against standard test vectors. -/

theorem md5Hex_empty_vector : md5Hex "" = "d41d8cd98f00b204e9800998ecf8427e" := by decide

theorem md5Hex_abc_vector : md5Hex "abc" = "900150983cd24fb0d6963f7d28e17f72" := by decide

/-- Lowercase hexadecimal digit predicate, used to state the output
format of the fingerprint function. -/
def isLowerHexDigit (c : Char) : Bool :=
  ('0' ≤ c && c ≤ '9') || ('a' ≤ c && c ≤ 'f')

theorem hexChar_lowerHex {n : Nat} (h : n < 16) : isLowerHexDigit (hexChar n) = true := by
  interval_cases n <;> decide

theorem byteHex_lowerHex (b : Nat) : ∀ c ∈ byteHex b, isLowerHexDigit c = true := by
  intro c hc
  simp only [byteHex, List.mem_cons, List.not_mem_nil, or_false] at hc
  rcases hc with h | h <;> subst h <;>
    exact hexChar_lowerHex (Nat.mod_lt _ (by norm_num))

theorem bytesHex_data (bs : List Nat) : (bytesHex bs).data = (bs.map byteHex).flatten := rfl

theorem bytesHex_length (bs : List Nat) : (bytesHex bs).length = 2 * bs.length := by
  show (bytesHex bs).data.length = 2 * bs.length
  rw [bytesHex_data]
  induction bs with
  | nil => rfl
  | cons b rest ih => simp only [List.map_cons, List.flatten_cons, List.length_append,
      List.length_cons, ih, byteHex, List.length_nil]; ring

theorem bytesHex_lowerHex (bs : List Nat) :
    ∀ c ∈ (bytesHex bs).data, isLowerHexDigit c = true := by
  intro c hc
  rw [bytesHex_data] at hc
  rcases List.mem_flatten.mp hc with ⟨l, hl, hcl⟩
  rcases List.mem_map.mp hl with ⟨b, _, rfl⟩
  exact byteHex_lowerHex b c hcl

theorem md5Bytes_length (msg : List Nat) : (md5Bytes msg).length = 16 := by
  simp [md5Bytes, wordLE]

theorem md5Hex_length (s : String) : (md5Hex s).length = 32 := by
  rw [md5Hex, bytesHex_length, md5Bytes_length]

theorem md5Hex_lowerHex (s : String) :
    ∀ c ∈ (md5Hex s).data, isLowerHexDigit c = true :=
  bytesHex_lowerHex _

/-- The concatenation chosen by priority, as the amended claim words it:
primary id, an underscore, then the secondary id when both are present;
the raw locator followed by the primary id; the raw locator alone; the
empty string. -/
def chosenContent (url bvid audio_id : Option String) : String :=
  if truthy bvid && truthy audio_id then optStr bvid ++ "_" ++ optStr audio_id
  else if truthy url && truthy bvid then optStr url ++ optStr bvid
  else if truthy url then optStr url
  else ""

/-- C1 counterexample: with primaryID "a" and secondaryID "b" both
present, the cache key is not the digest of the plain concatenation
"ab" that the claim describes; the code hashes "a_b", with an
underscore separator between the two ids. -/
theorem c1_counterexample :
    get_cache_key none (some "a") (some "b") ≠ md5Hex ("a" ++ "b") ∧
    get_cache_key none (some "a") (some "b") = md5Hex ("a" ++ "_" ++ "b") := by
  constructor <;> decide

/-- C1 (amended): the fingerprint is deterministic, equals the MD5
digest of the concatenation chosen by priority (with an underscore
separator between primary and secondary id in the preferred case), and
is a fixed-length (32 characters, 128 bits) lowercase hex string. -/
theorem c1_fingerprint (url bvid audio_id : Option String) :
    get_cache_key url bvid audio_id = get_cache_key url bvid audio_id ∧
    get_cache_key url bvid audio_id = md5Hex (chosenContent url bvid audio_id) ∧
    (get_cache_key url bvid audio_id).length = 32 ∧
    ∀ c ∈ (get_cache_key url bvid audio_id).data, isLowerHexDigit c = true :=
  ⟨rfl, rfl, md5Hex_length _, md5Hex_lowerHex _⟩

/-- C1 witness: the amended theorem evaluated at primaryID "a" and
secondaryID "b"; the digest of "a_b" starts with the hex digit 'd'. -/
theorem c1_fingerprint_witness :
    get_cache_key none (some "a") (some "b") =
      md5Hex (chosenContent none (some "a") (some "b")) ∧
    (get_cache_key none (some "a") (some "b")).length = 32 ∧
    isLowerHexDigit 'd' = true :=
  ⟨(c1_fingerprint none (some "a") (some "b")).2.1,
   (c1_fingerprint none (some "a") (some "b")).2.2.1,
   (c1_fingerprint none (some "a") (some "b")).2.2.2 'd' (by decide)⟩

/-! Filesystem lemmas shared by the cache theorems. -/

theorem fsGet_fsSet_self (fs : Fs) (p : String) (info : FileInfo) :
    fsGet (fsSet fs p info) p = some info := by
  induction fs with
  | nil => simp [fsGet, fsSet, List.find?]
  | cons e rest ih =>
    by_cases h : e.1 == p
    · simp [fsSet, h, fsGet, List.find?]
    · simp only [fsSet, h, Bool.false_eq_true, if_false]
      simpa [fsGet, List.find?, h] using ih

/-- C2: media lookup with the cache enabled. A fresh entry (age at most
cacheDays in seconds) is a hit returning the cached path; a stale entry
is deleted and missed; a missing entry is a miss; and an entry written
at time T is a hit at T + (TTL - eps) and a deleted miss at
T + (TTL + eps) for every positive eps. -/
theorem c2_media_lookup (cacheDir : String) (cacheDays : ℚ) (url bvid : Option String)
    (ext : String) (audio_id : Option String) (path : String)
    (hpath : path = get_cache_path cacheDir (mediaCacheKey url bvid audio_id) ext) :
    (∀ (now : ℚ) (fs : Fs) (info : FileInfo), fsGet fs path = some info →
        now - info.mtime ≤ cacheDays * 24 * 3600 →
        get_cached_file ⟨true, cacheDir, cacheDays⟩ url bvid ext audio_id now fs
          = (some path, fs)) ∧
    (∀ (now : ℚ) (fs : Fs) (info : FileInfo), fsGet fs path = some info →
        now - info.mtime > cacheDays * 24 * 3600 →
        get_cached_file ⟨true, cacheDir, cacheDays⟩ url bvid ext audio_id now fs
          = (none, fsErase fs path)) ∧
    (∀ (now : ℚ) (fs : Fs), fsGet fs path = none →
        get_cached_file ⟨true, cacheDir, cacheDays⟩ url bvid ext audio_id now fs
          = (none, fs)) ∧
    (∀ (fs : Fs) (d : FileData) (T ε : ℚ), 0 < ε → fsGet fs path = some ⟨d, T⟩ →
        get_cached_file ⟨true, cacheDir, cacheDays⟩ url bvid ext audio_id
          (T + (cacheDays * 24 * 3600 - ε)) fs = (some path, fs) ∧
        get_cached_file ⟨true, cacheDir, cacheDays⟩ url bvid ext audio_id
          (T + (cacheDays * 24 * 3600 + ε)) fs = (none, fsErase fs path)) := by
  subst hpath
  refine ⟨?_, ?_, ?_, ?_⟩
  · intro now fs info h hle
    simp [get_cached_file, h, hle]
  · intro now fs info h hgt
    simp [get_cached_file, h, not_le.mpr hgt]
  · intro now fs h
    simp [get_cached_file, h]
  · intro fs d T ε hε h
    constructor
    · have hle : T + (cacheDays * 24 * 3600 - ε) - T ≤ cacheDays * 24 * 3600 := by linarith
      simpa [get_cached_file, h] using hle
    · have hgt : ¬(T + (cacheDays * 24 * 3600 + ε) - T ≤ cacheDays * 24 * 3600) := by
        intro hc; linarith
      simp [get_cached_file, h, hgt]
      exact hε

/-- Filesystem used by the C2 witness: one cached media file, written at
time 0, under the path the lookup computes. -/
def c2fs : Fs :=
  [(get_cache_path "cache" (mediaCacheKey (some "u") none none) ".mp3",
    FileInfo.mk (FileData.media "tmp/f.mp3") 0)]

/-- C2 witness: with TTL 0 days, a lookup at time 0 (age 0) is a hit and
a lookup at time 0 + (TTL + 1) is a deleted miss. -/
theorem c2_media_lookup_witness :
    get_cached_file ⟨true, "cache", 0⟩ (some "u") none ".mp3" none 0 c2fs
      = (some (get_cache_path "cache" (mediaCacheKey (some "u") none none) ".mp3"), c2fs) ∧
    get_cached_file ⟨true, "cache", 0⟩ (some "u") none ".mp3" none (0 + (0 * 24 * 3600 + 1)) c2fs
      = (none, fsErase c2fs (get_cache_path "cache" (mediaCacheKey (some "u") none none) ".mp3")) :=
  ⟨(c2_media_lookup "cache" 0 (some "u") none ".mp3" none _ rfl).1 0 c2fs
      (FileInfo.mk (FileData.media "tmp/f.mp3") 0) rfl (by simp),
   ((c2_media_lookup "cache" 0 (some "u") none ".mp3" none _ rfl).2.2.2 c2fs
      (FileData.media "tmp/f.mp3") 0 1 (by simp) rfl).2⟩

/-! Transcript record lemmas. -/

theorem dictSet_of_not_mem (d : JDict) (k : String) (v : JVal)
    (h : d.any (fun e => e.1 == k) = false) : dictSet d k v = d ++ [(k, v)] := by
  simp [dictSet, h]

theorem isFalsyRecord_of_ne_nil {r : JDict} (hr : r ≠ []) :
    isFalsyRecord (some r) = false := by
  cases r with
  | nil => exact absurd rfl hr
  | cons e rest => rfl

/-- C3 counterexample: for the non-empty record {"cached_at": 0}, the
store/lookup round trip returns a record with one field (the existing
`cached_at` is overwritten in place), not a record with one field more
than the input as the claim requires. -/
theorem c3_counterexample :
    ((get_cached_transcript ⟨true, "cache", 0⟩ (some "u") none none 0
        (save_transcript_to_cache ⟨true, "cache", 0⟩ (some "u")
          (some [("cached_at", JVal.num 0)]) none none true 0 []).2).1).map List.length
      = some 1 ∧
    (some 1 : Option Nat) ≠ some (([("cached_at", JVal.num 0)] : JDict).length + 1) := by
  constructor
  · simp [get_cached_transcript, save_transcript_to_cache, isFalsyRecord, dictSet,
      fsGet, fsSet, List.find?]
  · simp

/-- C3 (amended): with the cache enabled, storing a non-empty record r
and immediately looking it up within the TTL returns r with the numeric
field `cached_at` set to the store time — appended as one new field
when r lacked it, overwritten in place when r already had one; every
field of r other than `cached_at` is preserved unchanged. -/
theorem c3_transcript_roundtrip (cacheDir : String) (cacheDays : ℚ)
    (url bvid audio_id : Option String) (r : JDict) (hr : r ≠ [])
    (t1 t2 : ℚ) (fs : Fs) (hfresh : t2 - t1 ≤ cacheDays * 24 * 3600) :
    (get_cached_transcript ⟨true, cacheDir, cacheDays⟩ url bvid audio_id t2
        (save_transcript_to_cache ⟨true, cacheDir, cacheDays⟩ url (some r) bvid audio_id
          true t1 fs).2).1
      = some (dictSet r "cached_at" (JVal.num t1)) ∧
    (r.any (fun e => e.1 == "cached_at") = false →
      (get_cached_transcript ⟨true, cacheDir, cacheDays⟩ url bvid audio_id t2
          (save_transcript_to_cache ⟨true, cacheDir, cacheDays⟩ url (some r) bvid audio_id
            true t1 fs).2).1
        = some (r ++ [("cached_at", JVal.num t1)])) := by
  have hfal := isFalsyRecord_of_ne_nil hr
  have hmain : (get_cached_transcript ⟨true, cacheDir, cacheDays⟩ url bvid audio_id t2
      (save_transcript_to_cache ⟨true, cacheDir, cacheDays⟩ url (some r) bvid audio_id
        true t1 fs).2).1 = some (dictSet r "cached_at" (JVal.num t1)) := by
    simp only [save_transcript_to_cache, hfal, Bool.not_true, Bool.false_or, Bool.false_eq_true,
      if_false, if_true, Option.getD_some]
    simp [get_cached_transcript, fsGet_fsSet_self, hfresh]
  exact ⟨hmain, fun hnm => by rw [hmain, dictSet_of_not_mem r _ _ hnm]⟩

/-- C3 witness: round trip of the record {"text": "hi"} with TTL 0 days,
stored and read at time 0, returns the record plus `cached_at`. -/
theorem c3_transcript_roundtrip_witness :
    (get_cached_transcript ⟨true, "cache", 0⟩ (some "u") none none 0
        (save_transcript_to_cache ⟨true, "cache", 0⟩ (some "u")
          (some [("text", JVal.str "hi")]) none none true 0 []).2).1
      = some ([("text", JVal.str "hi")] ++ [("cached_at", JVal.num 0)]) :=
  (c3_transcript_roundtrip "cache" 0 (some "u") none none [("text", JVal.str "hi")]
    (by simp) 0 0 [] (by simp)).2 rfl

/-- C10: save_transcript_to_cache mutates the caller's record. With the
cache enabled and a truthy record, the caller's record afterwards is the
record with `cached_at` set to the call time, and this holds whether or
not the disk write succeeds (in particular the filesystem is untouched
when the write fails); with the cache disabled or a falsy record, both
the record and the filesystem are unchanged. -/
theorem c10_transcript_store_frame (cacheDir : String) (cacheDays : ℚ) (enabled : Bool)
    (url bvid audio_id : Option String) (rec : Option JDict) (writeOk : Bool)
    (now : ℚ) (fs : Fs) :
    (enabled = true → isFalsyRecord rec = false →
      (save_transcript_to_cache ⟨enabled, cacheDir, cacheDays⟩ url rec bvid audio_id
          writeOk now fs).1 = some (dictSet (rec.getD []) "cached_at" (JVal.num now)) ∧
      (writeOk = false →
        (save_transcript_to_cache ⟨enabled, cacheDir, cacheDays⟩ url rec bvid audio_id
            writeOk now fs).2 = fs)) ∧
    (enabled = false ∨ isFalsyRecord rec = true →
      save_transcript_to_cache ⟨enabled, cacheDir, cacheDays⟩ url rec bvid audio_id
          writeOk now fs = (rec, fs)) := by
  constructor
  · rintro rfl hfal
    constructor
    · cases writeOk <;> simp [save_transcript_to_cache, hfal]
    · rintro rfl
      simp [save_transcript_to_cache, hfal]
  · rintro (rfl | hfal)
    · simp [save_transcript_to_cache]
    · simp [save_transcript_to_cache, hfal]

/-- C10 witness: a failing write at time 7 still rewrites the caller's
record {"text": "hi"} to carry cached_at 7 and leaves the filesystem
unchanged; a disabled cache changes nothing. -/
theorem c10_transcript_store_frame_witness :
    ((save_transcript_to_cache ⟨true, "cache", 0⟩ (some "u")
        (some [("text", JVal.str "hi")]) none none false 7 []).1
      = some (dictSet [("text", JVal.str "hi")] "cached_at" (JVal.num 7)) ∧
     (save_transcript_to_cache ⟨true, "cache", 0⟩ (some "u")
        (some [("text", JVal.str "hi")]) none none false 7 []).2 = []) ∧
    save_transcript_to_cache ⟨false, "cache", 0⟩ (some "u")
        (some [("text", JVal.str "hi")]) none none false 7 []
      = (some [("text", JVal.str "hi")], []) :=
  ⟨⟨((c10_transcript_store_frame "cache" 0 true (some "u") none none
        (some [("text", JVal.str "hi")]) false 7 []).1 rfl rfl).1,
    ((c10_transcript_store_frame "cache" 0 true (some "u") none none
        (some [("text", JVal.str "hi")]) false 7 []).1 rfl rfl).2 rfl⟩,
   (c10_transcript_store_frame "cache" 0 false (some "u") none none
        (some [("text", JVal.str "hi")]) false 7 []).2 (Or.inl rfl)⟩

/-- C7: with the cache enabled, a media store whose copy fails returns
the original uncached path with the filesystem untouched (the error is
swallowed, never surfaced — the model is a total function); a
successful copy returns the path inside the cache directory derived
from the fingerprint and the source extension. -/
theorem c7_store_media (cacheDir : String) (cacheDays : ℚ) (url : Option String)
    (file_path : String) (bvid audio_id : Option String) (now : ℚ) (fs : Fs) :
    save_to_cache ⟨true, cacheDir, cacheDays⟩ url file_path bvid audio_id false now fs
      = (file_path, fs) ∧
    save_to_cache ⟨true, cacheDir, cacheDays⟩ url file_path bvid audio_id true now fs
      = (get_cache_path cacheDir (mediaCacheKey url bvid audio_id)
           (if pathSuffix file_path == "" then ".mp3" else pathSuffix file_path),
         fsSet fs
           (get_cache_path cacheDir (mediaCacheKey url bvid audio_id)
             (if pathSuffix file_path == "" then ".mp3" else pathSuffix file_path))
           (FileInfo.mk (FileData.media file_path) now)) := by
  constructor <;> simp [save_to_cache]

/-! C8: sequences of store operations and the one-entry-per-path
invariant. -/

/-- A store operation against the cache (the two write entry points). -/
inductive CacheOp where
  | storeMedia (url : Option String) (file_path : String) (bvid audio_id : Option String)
      (copyOk : Bool) (t : ℚ)
  | storeTranscript (url : Option String) (rec : Option JDict) (bvid audio_id : Option String)
      (writeOk : Bool) (t : ℚ)

/-- Filesystem effect of one store operation. -/
def applyOp (cfg : CacheConfig) (fs : Fs) : CacheOp → Fs
  | CacheOp.storeMedia url fp bvid aid ok t => (save_to_cache cfg url fp bvid aid ok t fs).2
  | CacheOp.storeTranscript url r bvid aid ok t =>
      (save_transcript_to_cache cfg url r bvid aid ok t fs).2

/-- Filesystem after a sequence of store operations. -/
def applyOps (cfg : CacheConfig) (fs : Fs) (ops : List CacheOp) : Fs :=
  ops.foldl (applyOp cfg) fs

/-- The paths present in a filesystem. -/
def fsPaths (fs : Fs) : List String := fs.map Prod.fst

/-- Each path names at most one file. -/
def pathsDistinct (fs : Fs) : Prop := (fsPaths fs).Nodup

theorem fsPaths_fsSet_subset (fs : Fs) (p : String) (info : FileInfo) :
    ∀ q ∈ fsPaths (fsSet fs p info), q = p ∨ q ∈ fsPaths fs := by
  induction fs with
  | nil => intro q hq; simp [fsSet, fsPaths] at hq; exact Or.inl hq
  | cons e rest ih =>
    intro q hq
    by_cases h : e.1 == p
    · simp only [fsSet, h, if_true] at hq
      simp only [fsPaths, List.map_cons, List.mem_cons] at hq ⊢
      rcases hq with rfl | hq
      · exact Or.inl rfl
      · exact Or.inr (Or.inr hq)
    · simp only [fsSet, h, Bool.false_eq_true, if_false] at hq
      simp only [fsPaths, List.map_cons, List.mem_cons] at hq ⊢
      rcases hq with rfl | hq
      · exact Or.inr (Or.inl rfl)
      · rcases ih q hq with h' | h'
        · exact Or.inl h'
        · exact Or.inr (Or.inr h')

theorem pathsDistinct_fsSet (fs : Fs) (p : String) (info : FileInfo)
    (h : pathsDistinct fs) : pathsDistinct (fsSet fs p info) := by
  induction fs with
  | nil => simp [pathsDistinct, fsPaths, fsSet]
  | cons e rest ih =>
    rw [pathsDistinct, fsPaths, List.map_cons, List.nodup_cons] at h
    by_cases hep : e.1 == p
    · have hep' : e.1 = p := by simpa using hep
      simp only [pathsDistinct, fsPaths, fsSet, hep, if_true, List.map_cons, List.nodup_cons]
      exact ⟨hep' ▸ h.1, h.2⟩
    · simp only [pathsDistinct, fsPaths, fsSet, hep, Bool.false_eq_true, if_false,
        List.map_cons, List.nodup_cons]
      refine ⟨fun hmem => ?_, ih h.2⟩
      rcases fsPaths_fsSet_subset rest p info e.1 hmem with h' | h'
      · exact absurd (by simp [h']) hep
      · exact h.1 h'

theorem fsPaths_fsErase_subset (fs : Fs) (p : String) :
    ∀ q ∈ fsPaths (fsErase fs p), q ∈ fsPaths fs := by
  intro q hq
  simp only [fsPaths, fsErase, List.mem_map] at hq ⊢
  rcases hq with ⟨e, he, rfl⟩
  exact ⟨e, List.mem_of_mem_filter he, rfl⟩

theorem pathsDistinct_fsErase (fs : Fs) (p : String)
    (h : pathsDistinct fs) : pathsDistinct (fsErase fs p) := by
  induction fs with
  | nil => simp [pathsDistinct, fsPaths, fsErase]
  | cons e rest ih =>
    rw [pathsDistinct, fsPaths, List.map_cons, List.nodup_cons] at h
    by_cases hep : e.1 == p
    · simpa [pathsDistinct, fsErase, List.filter_cons, hep] using ih h.2
    · simp only [pathsDistinct, fsPaths, fsErase, List.filter_cons, hep, Bool.not_false,
        if_true, List.map_cons, List.nodup_cons]
      exact ⟨fun hmem => h.1 (fsPaths_fsErase_subset rest p e.1 hmem), ih h.2⟩

theorem countP_le_one_of_pathsDistinct (fs : Fs) (p : String) (h : pathsDistinct fs) :
    fs.countP (fun e => e.1 == p) ≤ 1 := by
  induction fs with
  | nil => simp
  | cons e rest ih =>
    rw [pathsDistinct, fsPaths, List.map_cons, List.nodup_cons] at h
    rw [List.countP_cons]
    by_cases hep : e.1 == p
    · have hzero : rest.countP (fun e => e.1 == p) = 0 := by
        rw [List.countP_eq_zero]
        intro a ha hap
        have hap' : a.1 = p := by simpa using hap
        have hep' : e.1 = p := by simpa using hep
        have hmem : e.1 ∈ fsPaths rest := by
          simp only [fsPaths, List.mem_map]
          exact ⟨a, ha, by rw [hap', hep']⟩
        exact h.1 hmem
      simp [hep, hzero]
    · simp only [hep, Bool.false_eq_true, if_false, Nat.add_zero]
      exact ih h.2

theorem save_to_cache_snd (cfg : CacheConfig) (url : Option String) (fp : String)
    (bvid aid : Option String) (ok : Bool) (t : ℚ) (fs : Fs) :
    (save_to_cache cfg url fp bvid aid ok t fs).2 = fs ∨
    ∃ p info, (save_to_cache cfg url fp bvid aid ok t fs).2 = fsSet fs p info := by
  unfold save_to_cache
  by_cases he : cfg.enabled <;> by_cases hc : ok <;> simp [he, hc]

theorem save_transcript_to_cache_snd (cfg : CacheConfig) (url : Option String)
    (r : Option JDict) (bvid aid : Option String) (ok : Bool) (t : ℚ) (fs : Fs) :
    (save_transcript_to_cache cfg url r bvid aid ok t fs).2 = fs ∨
    ∃ p info, (save_transcript_to_cache cfg url r bvid aid ok t fs).2 = fsSet fs p info := by
  unfold save_transcript_to_cache
  by_cases he : (!cfg.enabled || isFalsyRecord r) <;> by_cases hc : ok <;> simp [he, hc]

theorem pathsDistinct_applyOp (cfg : CacheConfig) (fs : Fs) (op : CacheOp)
    (h : pathsDistinct fs) : pathsDistinct (applyOp cfg fs op) := by
  cases op with
  | storeMedia url fp bvid aid ok t =>
    rcases save_to_cache_snd cfg url fp bvid aid ok t fs with heq | ⟨p, info, heq⟩ <;>
      rw [applyOp, heq]
    · exact h
    · exact pathsDistinct_fsSet fs p info h
  | storeTranscript url r bvid aid ok t =>
    rcases save_transcript_to_cache_snd cfg url r bvid aid ok t fs with heq | ⟨p, info, heq⟩ <;>
      rw [applyOp, heq]
    · exact h
    · exact pathsDistinct_fsSet fs p info h

theorem pathsDistinct_applyOps (cfg : CacheConfig) (ops : List CacheOp) :
    ∀ fs, pathsDistinct fs → pathsDistinct (applyOps cfg fs ops) := by
  induction ops with
  | nil => intro fs h; exact h
  | cons op rest ih =>
    intro fs h
    exact ih (applyOp cfg fs op) (pathsDistinct_applyOp cfg fs op h)

/-- Whether a filesystem entry is a media entry for the fingerprint
`key` under the top-level cache directory "cache". -/
def isMediaEntry (key : String) (e : String × FileInfo) : Bool :=
  leadsWith ("cache/" ++ key).data e.1.data &&
    (match e.2.data with
     | FileData.media _ => true
     | FileData.json _ => false)

/-- The filesystem after storing, under the same fingerprint, a source
file with extension ".mp3" and then one with extension ".m4a". -/
def c8fs : Fs :=
  applyOps ⟨true, "cache", 0⟩ []
    [CacheOp.storeMedia (some "u") "tmp/x.mp3" none none true 0,
     CacheOp.storeMedia (some "u") "tmp/x.m4a" none none true 0]

/-- C8 counterexample: two successful media stores for the same
fingerprint but different source extensions leave two media entries for
that (fingerprint, kind) pair — the second store added a file instead
of overwriting; the claim's bound of one entry per (fingerprint, kind)
fails. -/
theorem c8_counterexample :
    c8fs.countP (isMediaEntry (md5Hex "u")) = 2 ∧ ¬((2 : Nat) ≤ 1) := by
  constructor <;> decide

/-- C8 (amended): at most one cache entry exists per (fingerprint,
kind, extension) — equivalently per derived path, since the path is the
cache directory, fingerprint and extension for media, and the
transcripts directory, fingerprint and ".json" for transcript records.
Starting from a filesystem whose paths are distinct, after any sequence
of store operations the paths remain distinct and every path carries at
most one entry: stores overwrite the entry at an existing path, never
append a second one. -/
theorem c8_at_most_one_per_path (cfg : CacheConfig) (fs : Fs) (ops : List CacheOp)
    (p : String) (h : pathsDistinct fs) :
    pathsDistinct (applyOps cfg fs ops) ∧
    (applyOps cfg fs ops).countP (fun e => e.1 == p) ≤ 1 := by
  have hd := pathsDistinct_applyOps cfg ops fs h
  exact ⟨hd, countP_le_one_of_pathsDistinct _ p hd⟩

/-- C8 witness: the amended theorem applied to the empty filesystem and
a two-store sequence (same fingerprint, two extensions). -/
theorem c8_at_most_one_per_path_witness :
    pathsDistinct c8fs ∧
    c8fs.countP (fun e => e.1 == "cache/x.mp3") ≤ 1 :=
  c8_at_most_one_per_path ⟨true, "cache", 0⟩ []
    [CacheOp.storeMedia (some "u") "tmp/x.mp3" none none true 0,
     CacheOp.storeMedia (some "u") "tmp/x.m4a" none none true 0]
    "cache/x.mp3" (by simp [pathsDistinct, fsPaths])

/-! Lifecycle manager theorems. -/

/-- C4: initialization fallback. With nothing loaded and cuda available,
if `AutoModel` on cuda fails with a message containing "out of memory"
(case-insensitively), the manager empties the cuda cache and retries
exactly once on cpu: a successful retry ends Loaded on cpu; a failed
retry propagates that error with no further attempt. A cuda failure
that is not out-of-memory propagates immediately with no retry. -/
theorem c4_oom_fallback (env : Env) (now : ℚ) (st : MMState) (e : String)
    (hm : st.model = none) (hcuda : env.cudaAvailable = true)
    (hfail : env.autoModel "cuda" = Except.error e) :
    (containsOOM e = true →
      (∀ m, env.autoModel "cpu" = Except.ok m →
        load_model_if_needed env now st =
          (Except.ok m, MMState.mk (some m) "cpu" now,
           [Eff.initAttempt "cuda", Eff.cudaEmptyCache, Eff.initAttempt "cpu"])) ∧
      (∀ e2, env.autoModel "cpu" = Except.error e2 →
        load_model_if_needed env now st =
          (Except.error e2, MMState.mk none st.device now,
           [Eff.initAttempt "cuda", Eff.cudaEmptyCache, Eff.initAttempt "cpu"]))) ∧
    (containsOOM e = false →
      load_model_if_needed env now st =
        (Except.error e, MMState.mk none st.device now, [Eff.initAttempt "cuda"])) := by
  obtain ⟨mo, dev, t⟩ := st
  simp only [MMState.model] at hm
  subst hm
  refine ⟨fun hoom => ⟨fun m hok => ?_, fun e2 herr => ?_⟩, fun hnoom => ?_⟩
  · simp [load_model_if_needed, hcuda, hfail, hoom, hok]
  · simp [load_model_if_needed, hcuda, hfail, hoom, herr]
  · simp [load_model_if_needed, hcuda, hfail, hnoom]

/-- Environment for the C4 witness: cuda reports out of memory, cpu
initialization succeeds with instance 7. -/
def c4env : Env :=
  Env.mk true (fun d => if d == "cuda" then Except.error "CUDA out of memory." else Except.ok 7)

/-- C4 witness: the fallback theorem applied in the environment where
cuda exhausts and cpu succeeds, and, for the other two branches, in
environments where the cpu retry fails and where the cuda failure is
not out-of-memory. -/
theorem c4_oom_fallback_witness :
    load_model_if_needed c4env 3 (MMState.mk none "cpu" 0) =
      (Except.ok 7, MMState.mk (some 7) "cpu" 3,
       [Eff.initAttempt "cuda", Eff.cudaEmptyCache, Eff.initAttempt "cpu"]) ∧
    load_model_if_needed (Env.mk true (fun _ => Except.error "out of memory")) 3
        (MMState.mk none "cpu" 0) =
      (Except.error "out of memory", MMState.mk none "cpu" 3,
       [Eff.initAttempt "cuda", Eff.cudaEmptyCache, Eff.initAttempt "cpu"]) ∧
    load_model_if_needed (Env.mk true (fun _ => Except.error "weights missing")) 3
        (MMState.mk none "cpu" 0) =
      (Except.error "weights missing", MMState.mk none "cpu" 3, [Eff.initAttempt "cuda"]) :=
  ⟨((c4_oom_fallback c4env 3 (MMState.mk none "cpu" 0) "CUDA out of memory."
      rfl rfl rfl).1 (by decide)).1 7 rfl,
   ((c4_oom_fallback (Env.mk true (fun _ => Except.error "out of memory")) 3
      (MMState.mk none "cpu" 0) "out of memory" rfl rfl rfl).1 (by decide)).2
      "out of memory" rfl,
   (c4_oom_fallback (Env.mk true (fun _ => Except.error "weights missing")) 3
      (MMState.mk none "cpu" 0) "weights missing" rfl rfl rfl).2 (by decide)⟩

theorem load_model_ok_model (env : Env) (now : ℚ) (st : MMState) (m : Nat)
    (st' : MMState) (effs : List Eff)
    (h : load_model_if_needed env now st = (Except.ok m, st', effs)) :
    st'.model = some m := by
  obtain ⟨mo, dev, t⟩ := st
  cases mo with
  | some m0 =>
    simp [load_model_if_needed, Prod.mk.injEq] at h
    rw [← h.2.1]
    simp [h.1]
  | none =>
    cases hres : env.autoModel (if env.cudaAvailable then "cuda" else "cpu") with
    | ok m1 =>
      simp [load_model_if_needed, hres, Prod.mk.injEq] at h
      rw [← h.2.1, h.1]
    | error e =>
      by_cases hoom :
          (containsOOM e && ((if env.cudaAvailable then "cuda" else "cpu") == "cuda")) = true
      · cases hres2 : env.autoModel "cpu" with
        | ok m1 =>
          simp [load_model_if_needed, hres, hres2, hoom, Prod.mk.injEq] at h
          rw [← h.2.1, h.1]
        | error e2 =>
          simp [load_model_if_needed, hres, hres2, hoom, Prod.mk.injEq] at h
      · simp [load_model_if_needed, hres, hoom, Prod.mk.injEq] at h

/-- C5: acquire is idempotent. If an acquire at time t1 succeeded with
instance m, a second acquire at time t2 from the resulting state
performs no initialization (empty effect trace), changes only the
timestamp, and returns the same instance m. -/
theorem c5_acquire_idempotent (env : Env) (t1 t2 : ℚ) (st st1 : MMState) (m : Nat)
    (effs1 : List Eff)
    (h1 : load_model_if_needed env t1 st = (Except.ok m, st1, effs1)) :
    load_model_if_needed env t2 st1 =
      (Except.ok m, MMState.mk (some m) st1.device t2, []) := by
  have hm := load_model_ok_model env t1 st m st1 effs1 h1
  obtain ⟨mo1, dev1, tt1⟩ := st1
  simp only [MMState.model] at hm
  subst hm
  simp [load_model_if_needed]

/-- C5 witness: acquiring twice (times 1 then 2) in an environment
whose cpu initialization yields instance 3 returns instance 3 both
times, with no initialization effect on the second call. -/
theorem c5_acquire_idempotent_witness :
    load_model_if_needed (Env.mk false (fun _ => Except.ok 3)) 2
        (MMState.mk (some 3) "cpu" 1) =
      (Except.ok 3, MMState.mk (some 3) "cpu" 2, []) :=
  c5_acquire_idempotent (Env.mk false (fun _ => Except.ok 3)) 1 2
    (MMState.mk none "cpu" 0) (MMState.mk (some 3) "cpu" 1) 3 [Eff.initAttempt "cpu"] rfl

/-- C6: idle eviction. With an instance loaded, a sweep tick strictly
after the idle timeout unloads it (dropping the reference, collecting
garbage, and emptying the cuda cache when cuda is available), and a
subsequent acquire re-initializes a fresh instance on the preferred
device; a tick within the timeout, or with nothing loaded, changes
nothing and has no effects. -/
theorem c6_idle_eviction (env : Env) (idle_timeout now : ℚ) (st : MMState) (m : Nat)
    (hm : st.model = some m) :
    (now - st.last_active_time > idle_timeout →
      monitor_tick env idle_timeout now st =
        (MMState.mk none st.device st.last_active_time,
         Eff.gcCollect :: (if env.cudaAvailable then [Eff.cudaEmptyCache] else [])) ∧
      (∀ (t' : ℚ) (m' : Nat),
        env.autoModel (if env.cudaAvailable then "cuda" else "cpu") = Except.ok m' →
        load_model_if_needed env t' (MMState.mk none st.device st.last_active_time) =
          (Except.ok m',
           MMState.mk (some m') (if env.cudaAvailable then "cuda" else "cpu") t',
           [Eff.initAttempt (if env.cudaAvailable then "cuda" else "cpu")]))) ∧
    (¬(now - st.last_active_time > idle_timeout) →
      monitor_tick env idle_timeout now st = (st, [])) ∧
    (∀ st0 : MMState, st0.model = none →
      monitor_tick env idle_timeout now st0 = (st0, [])) := by
  obtain ⟨mo, dev, t⟩ := st
  simp only [MMState.model] at hm
  subst hm
  refine ⟨fun htime => ⟨?_, ?_⟩, fun htime => ?_, fun st0 h0 => ?_⟩
  · simp [monitor_tick, unload_model, htime]
  · intro t' m' hok
    cases hcuda : env.cudaAvailable <;> rw [hcuda] at hok <;>
      simp at hok <;> simp [load_model_if_needed, hcuda, hok]
  · simp [monitor_tick, htime]
  · obtain ⟨mo0, dev0, t0⟩ := st0
    simp only [MMState.model] at h0
    subst h0
    simp [monitor_tick]

/-- C6 witness: with instance 3 loaded, last used at time 0, timeout 1
and cuda unavailable, a tick at time 2 evicts (garbage collection, no
cuda cache release), a fresh acquire at time 5 re-initializes instance
4 on cpu, and a tick at time 1 within the timeout changes nothing. -/
theorem c6_idle_eviction_witness :
    monitor_tick (Env.mk false (fun _ => Except.ok 4)) 1 2 (MMState.mk (some 3) "cpu" 0) =
      (MMState.mk none "cpu" 0, [Eff.gcCollect]) ∧
    load_model_if_needed (Env.mk false (fun _ => Except.ok 4)) 5 (MMState.mk none "cpu" 0) =
      (Except.ok 4, MMState.mk (some 4) "cpu" 5, [Eff.initAttempt "cpu"]) ∧
    monitor_tick (Env.mk false (fun _ => Except.ok 4)) 1 1 (MMState.mk (some 3) "cpu" 0) =
      (MMState.mk (some 3) "cpu" 0, []) :=
  ⟨by
    have h := (c6_idle_eviction (Env.mk false (fun _ => Except.ok 4)) 1 2
      (MMState.mk (some 3) "cpu" 0) 3 rfl).1 (by simp)
    simpa using h.1,
   by
    have h := (c6_idle_eviction (Env.mk false (fun _ => Except.ok 4)) 1 2
      (MMState.mk (some 3) "cpu" 0) 3 rfl).1 (by simp)
    simpa using h.2 5 4 rfl,
   by
    have h := (c6_idle_eviction (Env.mk false (fun _ => Except.ok 4)) 1 1
      (MMState.mk (some 3) "cpu" 0) 3 rfl).2.1 (by simp)
    simpa using h⟩

/-- Environment for the C9 counterexample: initialization always fails
with a non-out-of-memory error. -/
def c9env : Env := Env.mk true (fun _ => Except.error "boom")

/-- C9 counterexample: an acquire at time 5 whose initialization fails
(error propagated) still overwrites last_active_time, which was 0
before the call, with 5 — the claim says a failing acquire leaves it
unchanged. -/
theorem c9_counterexample :
    (load_model_if_needed c9env 5 (MMState.mk none "cpu" 0)).2.1.last_active_time = 5 ∧
    (5 : ℚ) ≠ 0 ∧
    (load_model_if_needed c9env 5 (MMState.mk none "cpu" 0)).1 = Except.error "boom" := by
  refine ⟨rfl, by norm_num, rfl⟩

/-- C9 (amended): last_active_time records the wall-clock time of the
most recent acquire attempt: every call of load_model_if_needed —
returning an existing instance, initializing one, or failing — sets it
to the call time at entry. -/
theorem c9_last_active_attempt (env : Env) (now : ℚ) (st : MMState) :
    (load_model_if_needed env now st).2.1.last_active_time = now := by
  obtain ⟨mo, dev, t⟩ := st
  cases mo with
  | some m => simp [load_model_if_needed]
  | none =>
    cases hres : env.autoModel (if env.cudaAvailable then "cuda" else "cpu") with
    | ok m => simp [load_model_if_needed, hres]
    | error e =>
      by_cases hoom :
          (containsOOM e && ((if env.cudaAvailable then "cuda" else "cpu") == "cuda")) = true
      · cases hres2 : env.autoModel "cpu" with
        | ok m => simp [load_model_if_needed, hres, hres2, hoom]
        | error e2 => simp [load_model_if_needed, hres, hres2, hoom]
      · simp [load_model_if_needed, hres, hoom]

end TranscribeService
